import Mathlib

/-!
Shallow embedding of the YALF logging library (YALF.h, YALF_DeferredSink.h).

Machine integers in the source are modelled as `Nat`; `std::string` /
`std::string_view` as `String` or `List Char`; `std::unordered_map` as an
association list with unique keys (lookup is first match); a thrown
`std::runtime_error` as `Except.error`.  The build modelled is the
non-MSVC, non-`YALF_USE_LOCALTIME` configuration.
-/

namespace YALF

/-- The seven-member severity enum of YALF.h (lines 23-32), ordered by
declaration rank: Fatal = 0 .. Noise = 6. -/
inductive LogLevel where
  | Fatal
  | Critical
  | Error
  | Warning
  | Info
  | Debug
  | Noise
deriving DecidableEq, BEq, Repr, Fintype

/-- Underlying integer value of the C++ enum (declaration rank). -/
def LogLevel.toNat : LogLevel → Nat
  | .Fatal => 0
  | .Critical => 1
  | .Error => 2
  | .Warning => 3
  | .Info => 4
  | .Debug => 5
  | .Noise => 6

/-- The C++ comparison `a <= b` on the enum, which compares underlying values. -/
def LogLevel.le (a b : LogLevel) : Bool :=
  decide (a.toNat ≤ b.toNat)

/-- parseLogLevelString (YALF.h lines 34-45): sequential comparison against the
seven level names, `std::nullopt` on no match. -/
def parseLogLevelString (str : String) : Option LogLevel :=
  if str = "Fatal" then some .Fatal
  else if str = "Critical" then some .Critical
  else if str = "Error" then some .Error
  else if str = "Warning" then some .Warning
  else if str = "Info" then some .Info
  else if str = "Debug" then some .Debug
  else if str = "Noise" then some .Noise
  else none

/-- getLogLevelString (YALF.h lines 47-61).  The Lean enum is total, so the
unreachable fall-through return is not modelled. -/
def getLogLevelString : LogLevel → String
  | .Fatal => "Fatal"
  | .Critical => "Critical"
  | .Error => "Error"
  | .Warning => "Warning"
  | .Info => "Info"
  | .Debug => "Debug"
  | .Noise => "Noise"

/-- std::source_location: the four accessors used by the renderer. -/
structure SourceLocation where
  file_name : String
  function_name : String
  line : Nat
  column : Nat
deriving DecidableEq, Repr

/-- EntryMetadata (YALF.h lines 73-80).  The timestamp is an opaque clock
tick count; the field `instance` is renamed `inst` (Lean keyword). -/
structure EntryMetadata where
  level : LogLevel
  domain : String
  inst : Option String
  source_location : SourceLocation
  timestamp : Nat
deriving DecidableEq, Repr

/-- Filter state (YALF.h lines 100-126): a default severity threshold plus a
per-domain override map.  The unordered_map is an association list with
unique keys; member initializers give the defaults. -/
structure Filter where
  default_level : LogLevel := .Info
  domains : List (String × LogLevel) := []
deriving DecidableEq, Repr

/-- A freshly constructed Filter: `default_level = LogLevel::Info`,
empty domain map (YALF.h lines 124-125). -/
def Filter.new : Filter := {}

/-- Filter::checkFilter (YALF.h lines 107-117): find the entry's domain in the
override map (`find_if` comparing the entry's domain with each key); if found,
accept iff `entry.level <= override`, else iff `entry.level <= default_level`. -/
def Filter.checkFilter (f : Filter) (entry : EntryMetadata) : Bool :=
  match f.domains.find? (fun p => entry.domain == p.1) with
  | some p => LogLevel.le entry.level p.2
  | none => LogLevel.le entry.level f.default_level

/-- unordered_map operator[] assignment: replace the value under an existing
key, otherwise insert. -/
def updateAssoc (m : List (String × LogLevel)) (k : String) (v : LogLevel) :
    List (String × LogLevel) :=
  if m.any (fun p => p.1 == k) then
    m.map (fun p => if p.1 == k then (k, v) else p)
  else
    m ++ [(k, v)]

/-- Filter::setDefaultLogLevel (YALF.h line 119). -/
def Filter.setDefaultLogLevel (f : Filter) (level : LogLevel) : Filter :=
  { f with default_level := level }

/-- Filter::setDomainLogLevel (YALF.h line 120). -/
def Filter.setDomainLogLevel (f : Filter) (domain : String) (level : LogLevel) : Filter :=
  { f with domains := updateAssoc f.domains domain level }

/-- Filter::clearDomainLogLevel (YALF.h line 121). -/
def Filter.clearDomainLogLevel (f : Filter) (domain : String) : Filter :=
  { f with domains := f.domains.filter (fun p => p.1 != domain) }

/-- truncateFilename (YALF.h lines 135-144, non-MSVC): keep the suffix after
the last '/' (the whole string when there is no '/'; `find_last_of` returns
npos there and `npos + 1` wraps to 0, removing nothing). -/
def truncateFilename (filename : List Char) : List Char :=
  (filename.reverse.takeWhile (fun c => c != '/')).reverse

/-- The `{: >8}` format of the severity label in the %L directive: right
aligned, space filled, width 8. -/
def padTo8 (s : List Char) : List Char :=
  List.replicate (8 - s.length) ' ' ++ s

/-- Foreground color table of the %C directive (YALF.h lines 236-259); the
inner switch default emits nothing. -/
def fgColorCode (cc : Char) : List Char :=
  if cc = 'x' then "\x1b[30m".toList
  else if cc = 'r' then "\x1b[31m".toList
  else if cc = 'g' then "\x1b[32m".toList
  else if cc = 'y' then "\x1b[33m".toList
  else if cc = 'b' then "\x1b[34m".toList
  else if cc = 'm' then "\x1b[35m".toList
  else if cc = 'c' then "\x1b[36m".toList
  else if cc = 'w' then "\x1b[37m".toList
  else if cc = 'X' then "\x1b[90m".toList
  else if cc = 'R' then "\x1b[91m".toList
  else if cc = 'G' then "\x1b[92m".toList
  else if cc = 'Y' then "\x1b[93m".toList
  else if cc = 'B' then "\x1b[94m".toList
  else if cc = 'M' then "\x1b[95m".toList
  else if cc = 'C' then "\x1b[96m".toList
  else if cc = 'W' then "\x1b[97m".toList
  else []

/-- Background color table of the %Q directive (YALF.h lines 261-285). -/
def bgColorCode (cc : Char) : List Char :=
  if cc = 'x' then "\x1b[40m".toList
  else if cc = 'r' then "\x1b[41m".toList
  else if cc = 'g' then "\x1b[42m".toList
  else if cc = 'y' then "\x1b[43m".toList
  else if cc = 'b' then "\x1b[44m".toList
  else if cc = 'm' then "\x1b[45m".toList
  else if cc = 'c' then "\x1b[46m".toList
  else if cc = 'w' then "\x1b[47m".toList
  else if cc = 'X' then "\x1b[100m".toList
  else if cc = 'R' then "\x1b[101m".toList
  else if cc = 'G' then "\x1b[102m".toList
  else if cc = 'Y' then "\x1b[103m".toList
  else if cc = 'B' then "\x1b[104m".toList
  else if cc = 'M' then "\x1b[105m".toList
  else if cc = 'C' then "\x1b[106m".toList
  else if cc = 'W' then "\x1b[107m".toList
  else []

/-- A timestamp renderer abstracts `std::format_to("\x7b:%c\x7d", timestamp)`
for the twelve calendar/time directive characters: chrono formatting is
external to the repository, so it is an uninterpreted function from the
directive character to the produced text. -/
def TimestampFormatter := Char → List Char

/-- Output of one two-character directive `%fc` other than %C and %Q
(the cases of the switch at YALF.h lines 203-287 that consume exactly one
character after the '%'); the default case emits nothing. -/
def directiveOut (tf : TimestampFormatter) (meta : EntryMetadata) (msg : List Char)
    (fc : Char) : List Char :=
  if fc = '%' then ['%']
  else if fc = 'n' then ['\n']
  else if fc = 'y' then tf 'y'
  else if fc = 'Y' then tf 'Y'
  else if fc = 'b' then tf 'b'
  else if fc = 'B' then tf 'B'
  else if fc = 'm' then tf 'm'
  else if fc = 'd' then tf 'd'
  else if fc = 'e' then tf 'e'
  else if fc = 'a' then tf 'a'
  else if fc = 'A' then tf 'A'
  else if fc = 'H' then tf 'H'
  else if fc = 'M' then tf 'M'
  else if fc = 'S' then tf 'S'
  else if fc = 'F' then truncateFilename meta.source_location.file_name.toList
  else if fc = 'f' then meta.source_location.function_name.toList
  else if fc = 'l' then (Nat.repr meta.source_location.line).toList
  else if fc = 'c' then (Nat.repr meta.source_location.column).toList
  else if fc = 'D' then meta.domain.toList
  else if fc = 'I' then (meta.inst.getD "").toList
  else if fc = 'L' then padTo8 (getLogLevelString meta.level).toList
  else if fc = 'x' then msg
  else if fc = 'R' then "\x1b[0m".toList
  else []

/-- The directive characters the switch at YALF.h lines 203-287 handles with
a non-default case (%C and %Q included). -/
def recognizedDirective (fc : Char) : Bool :=
  ['%', 'n', 'y', 'Y', 'b', 'B', 'm', 'd', 'e', 'a', 'A', 'H', 'M', 'S', 'F', 'f',
   'l', 'c', 'D', 'I', 'L', 'x', 'R', 'C', 'Q'].contains fc

/-- One-iteration-at-a-time model of the scanning while loop of
FormattedStringSink::formatEntry (YALF.h lines 188-290), with explicit fuel.
State: cursor `s` and accumulated output `out`.  Faithful points:
  * a literal run copies up to the next '%' or the end and advances past it
    (the `fmt.find` branch, lines 190-200);
  * a '%' with a following character dispatches on that character and
    advances by 2, %C/%Q consuming a third character when one exists
    (lines 201-288);
  * a '%' in the last position takes neither branch and leaves `s`
    unchanged, so the loop repeats the same state forever; the model
    then returns `none` for every fuel. -/
def formatLoop (tf : TimestampFormatter) (meta : EntryMetadata) (msg : List Char)
    (fmt : List Char) : Nat → Nat → List Char → Option (List Char)
  | 0, _, _ => none
  | fuel + 1, s, out =>
    if s < fmt.length then
      if fmt.getD s ' ' ≠ '%' then
        let lit := (fmt.drop s).takeWhile (fun c => c != '%')
        formatLoop tf meta msg fmt fuel (s + lit.length) (out ++ lit)
      else if s < fmt.length - 1 then
        let fc := fmt.getD (s + 1) ' '
        if fc = 'C' then
          if s < fmt.length - 2 then
            formatLoop tf meta msg fmt fuel (s + 3) (out ++ fgColorCode (fmt.getD (s + 2) ' '))
          else
            formatLoop tf meta msg fmt fuel (s + 2) out
        else if fc = 'Q' then
          if s < fmt.length - 2 then
            formatLoop tf meta msg fmt fuel (s + 3) (out ++ bgColorCode (fmt.getD (s + 2) ' '))
          else
            formatLoop tf meta msg fmt fuel (s + 2) out
        else
          formatLoop tf meta msg fmt fuel (s + 2) (out ++ directiveOut tf meta msg fc)
      else
        formatLoop tf meta msg fmt fuel s out
    else
      some out

/-- FormattedStringSink state (YALF.h lines 145-296): the default template
and the per-severity override map, with the constructor's default. -/
structure FormattedStringSink where
  default_fmt : List Char := "%H:%M:%S %F:%l %D[%I] %L:  %x%R%n".toList
  fmts : List (LogLevel × List Char) := []
deriving DecidableEq, Repr

/-- FormattedStringSink::getFormatString (YALF.h lines 168-174). -/
def FormattedStringSink.getFormatString (snk : FormattedStringSink) (level : LogLevel) :
    List Char :=
  match snk.fmts.find? (fun p => p.1 == level) with
  | some p => p.2
  | none => snk.default_fmt

/-- FormattedStringSink::formatEntry (YALF.h lines 175-292): run the scanning
loop from position 0 with empty output.  Every iteration of the C++ loop that
makes progress advances `s` by at least 1, so fuel `fmt.length + 1` is exhausted
(`none`) exactly when the loop repeats a state forever. -/
def FormattedStringSink.formatEntry (tf : TimestampFormatter) (snk : FormattedStringSink)
    (meta : EntryMetadata) (msg : List Char) : Option (List Char) :=
  let fmt := snk.getFormatString meta.level
  formatLoop tf meta msg fmt (fmt.length + 1) 0 []

/-- A registered destination: a Sink is a Filter (YALF.h line 128) plus
delivery behaviour; `sinkId` stands for the identity of the heap object a
`unique_ptr<Sink>` owns, so distinct destinations can be told apart. -/
structure Sink extends Filter where
  sinkId : Nat
deriving DecidableEq, Repr

/-- Logger state (YALF.h lines 346-434): the name-keyed destination registry
(`unordered_map<string, unique_ptr<Sink>>`), an association list with
unique keys. -/
structure Logger where
  sinks : List (String × Sink) := []
deriving DecidableEq, Repr

/-- Logger::addSink (YALF.h lines 352-355): `sinks.emplace(name, sink)`.
`unordered_map::emplace` inserts only when the key is absent; when the key is
already present the map is left unchanged and the argument is discarded. -/
def Logger.addSink (L : Logger) (nm : String) (snk : Sink) : Logger :=
  match L.sinks.lookup nm with
  | some _ => L
  | none => { L with sinks := L.sinks ++ [(nm, snk)] }

/-- Logger::getSink (YALF.h lines 356-362): `sinks.find(name)`; returns the
stored sink, or throws `runtime_error("Failed to find sink " + name)`,
modelled as `Except.error`. -/
def Logger.getSink (L : Logger) (nm : String) : Except String Sink :=
  match L.sinks.lookup nm with
  | some snk => .ok snk
  | none => .error ("Failed to find sink " ++ nm)

/-- Logger::removeSink (YALF.h lines 363-366). -/
def Logger.removeSink (L : Logger) (nm : String) : Logger :=
  { L with sinks := L.sinks.filter (fun p => p.1 != nm) }

/-- Observable events of one Logger::dolog call: a `render` event each time
`std::vformat(fmt, args)` runs, and a `deliver` event for each invocation of a
destination's `log(meta, msg)`. -/
inductive LogEvent where
  | render (msg : String)
  | deliver (nm : String) (msg : String)
deriving DecidableEq, Repr

/-- Logger::dolog (YALF.h lines 369-392) as an event trace.  `vf` abstracts
`std::vformat` applied to the already-captured format string and argument
pack.  First pass: `passed` is true iff some registered sink's checkFilter
accepts the metadata (the early-returning for loop).  Only if `passed` does
the code format the message — once — and then deliver it to every sink whose
checkFilter accepts. -/
def Logger.dolog (L : Logger) (vf : String → String) (meta : EntryMetadata)
    (fmt : String) : List LogEvent :=
  let passed := L.sinks.any (fun p => p.2.toFilter.checkFilter meta)
  if passed then
    let msg := vf fmt
    LogEvent.render msg ::
      (L.sinks.filter (fun p => p.2.toFilter.checkFilter meta)).map
        (fun p => LogEvent.deliver p.1 msg)
  else []

/-- Number of render events in a dolog trace. -/
def rendersIn (t : List LogEvent) : Nat :=
  (t.filter (fun e => match e with | .render _ => true | _ => false)).length

/-- The (destination name, message) pairs delivered in a dolog trace, in
delivery order. -/
def deliversIn (t : List LogEvent) : List (String × String) :=
  t.filterMap (fun e => match e with | .deliver nm m => some (nm, m) | _ => none)

/-- Program counter of the DeferredSink worker thread running
doBackgroundWork (YALF_DeferredSink.h lines 76-97):
`outerCheck` = about to evaluate the outer `while (!stop_requested)`
condition (also the state right after the thread is spawned);
`waiting` = inside `cv.wait`, about to evaluate its predicate;
`draining` = about to evaluate the inner `while (!queue.empty())` condition;
`done` = doBackgroundWork returned, so `worker.join()` can complete. -/
inductive WorkerPC where
  | outerCheck
  | waiting
  | draining
  | done
deriving DecidableEq, Repr

/-- Shared state of one DeferredSink (YALF_DeferredSink.h lines 99-105)
together with the worker's program counter.  Queued entries are identified by
a number; `delivered` records the calls to `underlying->log`, in order. -/
structure DeferredState where
  queue : List Nat := []
  stop_requested : Bool := false
  delivered : List Nat := []
  pc : WorkerPC := .outerCheck
deriving DecidableEq, Repr

/-- Atomic steps of the threads around one DeferredSink:
`enqueue m` is DeferredSink::log (lines 58-73), which pushes a copied entry
onto the queue tail under the mutex and notifies;
`requestStop` is the destructor setting `stop_requested = true` and
notifying (lines 34-39);
`workerStep` advances the worker by one check or one drained entry. -/
inductive DSAction where
  | enqueue (m : Nat)
  | requestStop
  | workerStep
deriving DecidableEq, Repr

/-- One interleaved step.  The worker transitions mirror doBackgroundWork
(YALF_DeferredSink.h lines 76-97): the outer condition sends it to `done`
as soon as `stop_requested` is observed true — before any draining; the
cv.wait predicate is `stop_requested || !queue.empty()`; the inner loop
forwards the queue head to `underlying->log` and pops it, returning to the
outer condition when the queue is empty. -/
def dstep (st : DeferredState) : DSAction → DeferredState
  | .enqueue m => { st with queue := st.queue ++ [m] }
  | .requestStop => { st with stop_requested := true }
  | .workerStep =>
    match st.pc with
    | .outerCheck =>
      if st.stop_requested then { st with pc := .done } else { st with pc := .waiting }
    | .waiting =>
      if st.stop_requested || !st.queue.isEmpty then { st with pc := .draining } else st
    | .draining =>
      match st.queue with
      | [] => { st with pc := .outerCheck }
      | e :: rest => { st with queue := rest, delivered := st.delivered ++ [e] }
    | .done => st

/-- Run a schedule of interleaved steps from the freshly constructed state
(empty queue, stop not requested, worker just spawned). -/
def drun (acts : List DSAction) : DeferredState :=
  acts.foldl dstep {}

/-- A concrete source location, used to instantiate closed statements. -/
def sampleLoc : SourceLocation :=
  { file_name := "src/main.cpp", function_name := "main", line := 42, column := 5 }

/-- A concrete metadata value at severity Info. -/
def sampleMeta : EntryMetadata :=
  { level := .Info, domain := "net", inst := none, source_location := sampleLoc, timestamp := 0 }

/-- The same metadata at severity Debug, which a fresh Filter rejects. -/
def sampleMetaDebug : EntryMetadata :=
  { sampleMeta with level := .Debug }

/-- A concrete timestamp renderer producing empty text. -/
def sampleTf : TimestampFormatter := fun _ => []

/-- A concrete stand-in for `std::vformat` of a zero-argument pack. -/
def sampleVf : String → String := fun s => s

/-- Two concrete, distinct destinations (fresh filters, different identity). -/
def sampleSink1 : Sink := { sinkId := 1 }

/-- Second of the two concrete destinations. -/
def sampleSink2 : Sink := { sinkId := 2 }

/-- A concrete logger with one registered destination. -/
def sampleLogger : Logger := { sinks := [("console", sampleSink1)] }

/-- The `find_if` over pairs projected on the key, as checkFilter performs it,
agrees with association-list lookup of the key. -/
theorem find?_snd_eq_lookup (l : List (String × LogLevel)) (d : String) :
    (l.find? (fun p => d == p.1)).map Prod.snd = l.lookup d := by
  induction l with
  | nil => rfl
  | cons hd tl ih =>
    obtain ⟨k, v⟩ := hd
    cases h : (d == k) <;> simp [List.find?, List.lookup, h, ih]

/-- Transitivity of the severity comparison. -/
theorem logLevel_le_trans (a b c : LogLevel) (hab : LogLevel.le a b = true)
    (hbc : LogLevel.le b c = true) : LogLevel.le a c = true := by
  simp only [LogLevel.le, decide_eq_true_eq] at hab hbc ⊢
  exact Nat.le_trans hab hbc

/-- C5 (confirmed): Filter::checkFilter accepts an entry iff its severity is
at most the override threshold when the entry's domain has one in the domain
mapping, and otherwise iff its severity is at most the default threshold;
unknown domains fall through to the default. -/
theorem checkFilter_override_then_default (f : Filter) (meta : EntryMetadata) :
    f.checkFilter meta =
      (match f.domains.lookup meta.domain with
       | some t => LogLevel.le meta.level t
       | none => LogLevel.le meta.level f.default_level) := by
  unfold Filter.checkFilter
  rw [← find?_snd_eq_lookup f.domains meta.domain]
  cases f.domains.find? (fun p => meta.domain == p.1) <;> rfl

/-- C6 (confirmed): the filter is monotone in severity — for any filter state
and metadata, if an entry at severity s2 is accepted then the same entry at a
more severe level s1 (s1 <= s2) is also accepted. -/
theorem checkFilter_monotone_in_severity (f : Filter) (meta : EntryMetadata)
    (s1 s2 : LogLevel) (h12 : LogLevel.le s1 s2 = true)
    (h2 : f.checkFilter { meta with level := s2 } = true) :
    f.checkFilter { meta with level := s1 } = true := by
  unfold Filter.checkFilter at h2 ⊢
  cases h : f.domains.find? (fun p => meta.domain == p.1) with
  | none =>
    simp only [h] at h2 ⊢
    exact logLevel_le_trans s1 s2 f.default_level h12 h2
  | some p =>
    simp only [h] at h2 ⊢
    exact logLevel_le_trans s1 s2 p.2 h12 h2

/-- Closed instantiation of the monotonicity theorem: the fresh filter
accepts sampleMeta at Info, hence also at Error. -/
theorem checkFilter_monotone_in_severity_witness :
    Filter.new.checkFilter { sampleMeta with level := .Error } = true :=
  checkFilter_monotone_in_severity Filter.new sampleMeta .Error .Info (by decide) (by rfl)

/-- C9 (confirmed): a freshly constructed Filter has default threshold Info
and an empty domain map, so for every domain it accepts exactly the
severities Fatal, Critical, Error, Warning and Info, rejecting Debug and
Noise. -/
theorem freshFilter_accepts_upto_Info (meta : EntryMetadata) :
    Filter.new.checkFilter meta = true ↔
      (meta.level = .Fatal ∨ meta.level = .Critical ∨ meta.level = .Error ∨
       meta.level = .Warning ∨ meta.level = .Info) := by
  obtain ⟨lvl, dom, inst, sl, ts⟩ := meta
  cases lvl <;> simp [Filter.new, Filter.checkFilter, LogLevel.le, LogLevel.toNat]

/-- C10 (confirmed): parsing the name of any of the seven severity levels
returns that level, and parsing any string that is not one of the seven
level names returns no value. -/
theorem logLevel_string_roundtrip :
    (∀ L : LogLevel, parseLogLevelString (getLogLevelString L) = some L) ∧
    (∀ s : String, (∀ L : LogLevel, s ≠ getLogLevelString L) →
        parseLogLevelString s = none) := by
  constructor
  · intro L; cases L <;> rfl
  · intro s h
    have h1 := h .Fatal
    have h2 := h .Critical
    have h3 := h .Error
    have h4 := h .Warning
    have h5 := h .Info
    have h6 := h .Debug
    have h7 := h .Noise
    simp only [getLogLevelString] at h1 h2 h3 h4 h5 h6 h7
    simp [parseLogLevelString, h1, h2, h3, h4, h5, h6, h7]

/-- Closed instantiation of the round-trip theorem at Warning and at a
string that is no level name. -/
theorem logLevel_string_roundtrip_witness :
    parseLogLevelString (getLogLevelString .Warning) = some .Warning ∧
    parseLogLevelString "Verbose" = none :=
  ⟨logLevel_string_roundtrip.1 .Warning,
   logLevel_string_roundtrip.2 "Verbose" (by decide)⟩

/-- C8 (confirmed): Logger::getSink on an unregistered name fails with the
NotFound error surfaced to the caller (a thrown runtime_error, modelled as
`Except.error`), and on a registered name returns the stored destination. -/
theorem getSink_notFound_or_found (L : Logger) (nm : String) :
    (L.sinks.lookup nm = none →
        L.getSink nm = .error ("Failed to find sink " ++ nm)) ∧
    (∀ snk, L.sinks.lookup nm = some snk → L.getSink nm = .ok snk) := by
  constructor
  · intro h; simp [Logger.getSink, h]
  · intro snk h; simp [Logger.getSink, h]

/-- Closed instantiation of the getSink theorem on an empty registry and on
a registered name. -/
theorem getSink_notFound_or_found_witness :
    Logger.getSink {} "missing" = .error ("Failed to find sink " ++ "missing") ∧
    sampleLogger.getSink "console" = .ok sampleSink1 :=
  ⟨(getSink_notFound_or_found {} "missing").1 rfl,
   (getSink_notFound_or_found sampleLogger "console").2 sampleSink1 rfl⟩

/-- C1 (counterexample): re-adding the name "console" does not install the
new destination — getSink still returns the first one, which differs from
the second.  `unordered_map::emplace` leaves the map unchanged on an
existing key. -/
theorem addSink_reAdd_does_not_replace_cex :
    ((Logger.addSink (Logger.addSink {} "console" sampleSink1) "console" sampleSink2).getSink
        "console" = .ok sampleSink1) ∧ sampleSink1 ≠ sampleSink2 := by
  constructor
  · rfl
  · decide

/-- C1 (amended, proved): calling addSink(name, d2) when d1 is already
registered under that name leaves the logger completely unchanged — d1
remains the destination getSink returns and the one subsequent log calls
consult and deliver to. -/
theorem addSink_reAdd_noop (L : Logger) (nm : String) (d1 d2 : Sink)
    (h : L.sinks.lookup nm = some d1) :
    L.addSink nm d2 = L ∧ (L.addSink nm d2).getSink nm = .ok d1 := by
  have hA : L.addSink nm d2 = L := by simp [Logger.addSink, h]
  refine ⟨hA, ?_⟩
  rw [hA]
  simp [Logger.getSink, h]

/-- Closed instantiation of the amended addSink theorem. -/
theorem addSink_reAdd_noop_witness :
    sampleLogger.addSink "console" sampleSink2 = sampleLogger ∧
    (sampleLogger.addSink "console" sampleSink2).getSink "console" = .ok sampleSink1 :=
  addSink_reAdd_noop sampleLogger "console" sampleSink1 sampleSink2 rfl

/-- A list of deliver events contains no render event. -/
theorem rendersIn_deliver_map (msg : String) (l : List (String × Sink)) :
    rendersIn (l.map (fun p => LogEvent.deliver p.1 msg)) = 0 := by
  induction l with
  | nil => rfl
  | cons hd tl ih => simpa [rendersIn, List.filter] using ih

/-- Prepending a render event leaves the delivered pairs unchanged and adds
one to the render count. -/
theorem rendersIn_render_cons (m : String) (t : List LogEvent) :
    rendersIn (LogEvent.render m :: t) = rendersIn t + 1 := by
  simp [rendersIn, List.filter, Nat.add_comm]

/-- The delivered pairs of a list of deliver events are the (name, message)
pairs in order. -/
theorem deliversIn_deliver_map (msg : String) (l : List (String × Sink)) :
    deliversIn (l.map (fun p => LogEvent.deliver p.1 msg)) =
      l.map (fun p => (p.1, msg)) := by
  induction l with
  | nil => rfl
  | cons hd tl ih => simp [deliversIn, List.filterMap] at ih ⊢; exact ih

/-- A render event delivers nothing. -/
theorem deliversIn_render_cons (m : String) (t : List LogEvent) :
    deliversIn (LogEvent.render m :: t) = deliversIn t := by
  simp [deliversIn, List.filterMap]

/-- C3 (confirmed): when no registered destination's checkFilter accepts the
metadata, dolog produces no event at all — the format string is never
expanded and no destination's log is invoked; when at least one accepts, the
template is expanded exactly once and the rendered message is delivered to
exactly the destinations whose filter accepts, in registry order. -/
theorem dolog_renders_once_and_delivers_to_acceptors (L : Logger)
    (vf : String → String) (meta : EntryMetadata) (fmt : String) :
    (L.sinks.any (fun p => p.2.toFilter.checkFilter meta) = false →
        L.dolog vf meta fmt = []) ∧
    (L.sinks.any (fun p => p.2.toFilter.checkFilter meta) = true →
        rendersIn (L.dolog vf meta fmt) = 1 ∧
        deliversIn (L.dolog vf meta fmt) =
          (L.sinks.filter (fun p => p.2.toFilter.checkFilter meta)).map
            (fun p => (p.1, vf fmt))) := by
  constructor
  · intro h
    simp [Logger.dolog, h]
  · intro h
    unfold Logger.dolog
    simp only [h, if_pos]
    constructor
    · rw [rendersIn_render_cons, rendersIn_deliver_map]
    · rw [deliversIn_render_cons, deliversIn_deliver_map]

/-- Closed instantiation of the dolog theorem: the one-destination logger
suppresses a Debug entry entirely and serves an Info entry with one render
and one delivery. -/
theorem dolog_renders_once_witness :
    sampleLogger.dolog sampleVf sampleMetaDebug "boot" = [] ∧
    rendersIn (sampleLogger.dolog sampleVf sampleMeta "boot") = 1 ∧
    deliversIn (sampleLogger.dolog sampleVf sampleMeta "boot") =
      (sampleLogger.sinks.filter (fun p => p.2.toFilter.checkFilter sampleMeta)).map
        (fun p => (p.1, sampleVf "boot")) :=
  ⟨(dolog_renders_once_and_delivers_to_acceptors sampleLogger sampleVf sampleMetaDebug
      "boot").1 (by decide),
   ((dolog_renders_once_and_delivers_to_acceptors sampleLogger sampleVf sampleMeta
      "boot").2 (by decide)).1,
   ((dolog_renders_once_and_delivers_to_acceptors sampleLogger sampleVf sampleMeta
      "boot").2 (by decide)).2⟩

/-- C2 (code bug): on a template whose scan reaches a '%' in the final
position, the while loop of formatEntry takes neither branch and never
advances, so it runs forever — for every fuel the loop model returns `none`,
and formatEntry on the template "%" returns `none` instead of a string
ending in the literal '%'. -/
theorem formatEntry_trailing_percent_diverges :
    (∀ (tf : TimestampFormatter) (meta : EntryMetadata) (msg fmt : List Char)
        (s : Nat) (out : List Char), s + 1 = fmt.length → fmt.getD s ' ' = '%' →
        ∀ fuel, formatLoop tf meta msg fmt fuel s out = none) ∧
    (∀ (tf : TimestampFormatter) (meta : EntryMetadata) (msg : List Char),
        FormattedStringSink.formatEntry tf { default_fmt := ['%'], fmts := [] } meta msg
          = none) := by
  have main : ∀ (tf : TimestampFormatter) (meta : EntryMetadata) (msg fmt : List Char)
      (s : Nat) (out : List Char), s + 1 = fmt.length → fmt.getD s ' ' = '%' →
      ∀ fuel, formatLoop tf meta msg fmt fuel s out = none := by
    intro tf meta msg fmt s out hlast hpc fuel
    induction fuel with
    | zero => rfl
    | succ n ih =>
      unfold formatLoop
      have h1 : s < fmt.length := by omega
      have h2 : ¬ s < fmt.length - 1 := by omega
      rw [if_pos h1, if_neg (show ¬ fmt.getD s ' ' ≠ '%' from fun hne => hne hpc),
        if_neg h2]
      exact ih
  refine ⟨main, ?_⟩
  intro tf meta msg
  exact main tf meta msg ['%'] 0 [] rfl rfl 2

/-- Closed instantiation of the divergence theorem at the template "%". -/
theorem formatEntry_trailing_percent_diverges_witness :
    formatLoop sampleTf sampleMeta [] ['%'] 3 0 [] = none :=
  formatEntry_trailing_percent_diverges.1 sampleTf sampleMeta [] ['%'] 0 [] rfl rfl 3

/-- C7 (confirmed): a '%' followed by a character outside the recognized
directive set emits nothing — the scan consumes the two characters and
continues after them with the output unchanged — and rendering the template
"a%Zb" produces exactly "ab". -/
theorem formatEntry_unknown_directive_skipped :
    (∀ (tf : TimestampFormatter) (meta : EntryMetadata) (msg fmt : List Char)
        (fuel s : Nat) (out : List Char),
        s + 1 < fmt.length → fmt.getD s ' ' = '%' →
        recognizedDirective (fmt.getD (s + 1) ' ') = false →
        formatLoop tf meta msg fmt (fuel + 1) s out
          = formatLoop tf meta msg fmt fuel (s + 2) out) ∧
    (∀ (tf : TimestampFormatter) (meta : EntryMetadata) (msg : List Char),
        FormattedStringSink.formatEntry tf { default_fmt := "a%Zb".toList, fmts := [] }
          meta msg = some "ab".toList) := by
  constructor
  · intro tf meta msg fmt fuel s out hlen hpc hrec
    simp [recognizedDirective] at hrec
    obtain ⟨hp, hn, hy, hY, hb, hB, hm, hd, he, ha, hA, hH, hM, hS, hF, hf, hl, hc,
      hD, hI, hL, hx, hR, hC, hQ⟩ := hrec
    have h1 : s < fmt.length := by omega
    have h2 : s < fmt.length - 1 := by omega
    rw [formatLoop]
    rw [if_pos h1, if_neg (show ¬ fmt.getD s ' ' ≠ '%' from fun hne => hne hpc),
      if_pos h2]
    simp [hC, hQ, directiveOut, hp, hn, hy, hY, hb, hB, hm, hd, he, ha,
      hA, hH, hM, hS, hF, hf, hl, hc, hD, hI, hL, hx, hR]
  · intro tf meta msg
    rfl

/-- Closed instantiation of the unknown-directive theorem at the templates
"%Z." and "a%Zb". -/
theorem formatEntry_unknown_directive_skipped_witness :
    formatLoop sampleTf sampleMeta [] ['%', 'Z', '.'] 5 0 []
      = formatLoop sampleTf sampleMeta [] ['%', 'Z', '.'] 4 2 [] ∧
    FormattedStringSink.formatEntry sampleTf { default_fmt := "a%Zb".toList, fmts := [] }
      sampleMeta "m".toList = some "ab".toList :=
  ⟨formatEntry_unknown_directive_skipped.1 sampleTf sampleMeta [] ['%', 'Z', '.'] 4 0 []
      (by decide) rfl rfl,
   formatEntry_unknown_directive_skipped.2 sampleTf sampleMeta "m".toList⟩

/-- C4 (code bug): interleaving in which the destructor sets stop_requested
and the worker thread then observes it at the outer loop condition before
having drained anything: the worker exits immediately (`pc = done`, so
`worker.join()` and hence destruction complete) while the enqueued entry was
never forwarded to the wrapped destination — delivered is empty and the
entry is still in the queue, which is then destroyed.  The claim requires
exactly K = 1 delivery. -/
theorem deferredSink_stop_before_drain_loses_entries :
    (drun [.enqueue 1, .requestStop, .workerStep]).pc = .done ∧
    (drun [.enqueue 1, .requestStop, .workerStep]).delivered = [] ∧
    (drun [.enqueue 1, .requestStop, .workerStep]).queue = [1] := by
  decide

/-- Sanity: in the intended schedule — the worker reaches its wait, drains,
and only then observes the stop — two enqueued entries are forwarded in FIFO
order and none is lost. -/
theorem drun_orderly_drain_example :
    (drun [.workerStep, .enqueue 1, .enqueue 2, .workerStep, .workerStep, .workerStep,
        .workerStep, .requestStop, .workerStep, .workerStep]).delivered = [1, 2] ∧
    (drun [.workerStep, .enqueue 1, .enqueue 2, .workerStep, .workerStep, .workerStep,
        .workerStep, .requestStop, .workerStep, .workerStep]).pc = .done := by
  decide

end YALF
